import Mathlib

/-!
Shallow embedding of the money-pies Schwab brokerage adapter
(internal/pkg/brokerages/schwab/client.go) together with the canonical
domain model it targets (internal/pkg/pies/brokerage.go).

Modelling conventions:
- Vendor numbers parsed from JSON are exact rationals.  Where IEEE division
  by zero matters, derived fields live in `FQ := Option Rat`: `some q` is a
  finite value and `none` stands for a non-finite result (NaN or an
  infinity); the `FQ` arithmetic propagates `none` and sends division by
  zero to `none`, mirroring IEEE-754 on the finite versus non-finite
  distinction.
- Go time instants and durations are integers counted in seconds.
- Network effects are modelled by passing the vendor response as an
  argument; file-system effects by an explicit `FileState` value.  The Go
  string enums (OrderType, OrderAction, OrderStatus) stay strings.
-/

namespace MoneyPies

/-! ## Canonical domain model (package pies, brokerage.go) -/

abbrev OrderType := String

def OrderTypeMarket : OrderType := "MARKET"

def OrderTypeLimit : OrderType := "LIMIT"

abbrev OrderAction := String

def OrderActionBuy : OrderAction := "BUY"

def OrderActionSell : OrderAction := "SELL"

abbrev OrderStatus := String

def OrderStatusPending : OrderStatus := "PENDING"

def OrderStatusFilled : OrderStatus := "FILLED"

def OrderStatusCancelled : OrderStatus := "CANCELLED"

def OrderStatusRejected : OrderStatus := "REJECTED"

/-- IEEE-style float abstraction: `some q` is a finite value, `none` is a
non-finite one (NaN or an infinity). -/
abbrev FQ := Option ℚ

def fsub : FQ → FQ → FQ
  | some a, some b => some (a - b)
  | _, _ => none

def fmul : FQ → FQ → FQ
  | some a, some b => some (a * b)
  | _, _ => none

/-- Division of finite floats is non-finite exactly when the denominator is
zero (x/0 is an infinity for x different from 0 and NaN for x = 0). -/
def fdiv : FQ → FQ → FQ
  | some a, some b => if b = 0 then none else some (a / b)
  | _, _ => none

/-- Canonical position (brokerage.go lines 60-68); numeric fields use the
float abstraction so that a non-finite value is representable. -/
structure Position where
  symbol : String
  quantity : FQ
  averagePrice : FQ
  currentPrice : FQ
  marketValue : FQ
  unrealizedPL : FQ
  unrealizedPLPct : FQ
  deriving Repr, DecidableEq

/-- Canonical account (brokerage.go lines 71-79). -/
structure Account where
  accountID : String
  accountNumber : String
  type : String
  cashBalance : ℚ
  buyingPower : ℚ
  marketValue : ℚ
  totalValue : ℚ
  deriving Repr, DecidableEq

/-- Canonical order request (brokerage.go lines 51-57). -/
structure OrderRequest where
  symbol : String
  action : OrderAction
  type : OrderType
  quantity : ℚ
  limitPrice : Option ℚ
  deriving Repr, DecidableEq

/-- Canonical order (brokerage.go lines 35-48); rawResponse holds the body
string PlaceOrder stores there. -/
structure Order where
  id : String
  symbol : String
  action : OrderAction
  type : OrderType
  quantity : ℚ
  limitPrice : Option ℚ
  status : OrderStatus
  filledQty : ℚ
  filledPrice : ℚ
  submittedAt : ℤ
  filledAt : Option ℤ
  rawResponse : String
  deriving Repr, DecidableEq

/-! ## Schwab client state (client.go lines 34-68) -/

structure Config where
  clientID : String
  clientSecret : String
  redirectURI : String
  tokenFile : String
  deriving Repr, DecidableEq

/-- OAuth token record (client.go lines 43-50); ExpiresAt is an absolute
instant in seconds. -/
structure Token where
  accessToken : String
  refreshToken : String
  expiresIn : ℤ
  tokenType : String
  scope : String
  expiresAt : ℤ
  deriving Repr, DecidableEq

structure Client where
  config : Config
  httpTimeoutSeconds : ℤ
  token : Option Token
  deriving Repr, DecidableEq

def baseURL : String := "https://api.schwabapi.com"

/-- NewClient (client.go lines 61-68): the http.Client timeout is the
constant 30 seconds; the timeoutInSeconds argument is never read and no
token is installed. -/
def NewClient (config : Config) (_timeoutInSeconds : ℤ) : Client :=
  { config := config, httpTimeoutSeconds := 30, token := none }

/-- IsAuthenticated (client.go lines 194-196): a token is present and now is
strictly before its expiry (time.Time.Before is strict). -/
def IsAuthenticated (c : Client) (now : ℤ) : Bool :=
  match c.token with
  | none => false
  | some t => decide (now < t.expiresAt)

/-! ## Credential store (client.go lines 78-102) -/

/-- JSON scalar as it appears in the persisted token object. -/
inductive JsonVal where
  | str (s : String)
  | num (q : ℚ)
  deriving Repr, DecidableEq

/-- Marshalled form of a Token, field names from the struct tags at
client.go lines 43-50. -/
def encodeToken (t : Token) : List (String × JsonVal) :=
  [("access_token", .str t.accessToken),
   ("refresh_token", .str t.refreshToken),
   ("expires_in", .num (t.expiresIn : ℚ)),
   ("token_type", .str t.tokenType),
   ("scope", .str t.scope),
   ("expires_at", .num (t.expiresAt : ℚ))]

/-- Go json.Unmarshal reading a string field: a missing key leaves the zero
value, a key of the wrong type is an unmarshal error. -/
def getStrField (l : List (String × JsonVal)) (k : String) : Option String :=
  match l.lookup k with
  | none => some ""
  | some (.str s) => some s
  | some (.num _) => none

/-- Go json.Unmarshal reading an int field: a missing key gives 0, a
non-integral number or a string is an unmarshal error. -/
def getIntField (l : List (String × JsonVal)) (k : String) : Option ℤ :=
  match l.lookup k with
  | none => some 0
  | some (.str _) => none
  | some (.num q) => if q.den = 1 then some q.num else none

def decodeToken (l : List (String × JsonVal)) : Option Token := do
  let accessToken ← getStrField l "access_token"
  let refreshToken ← getStrField l "refresh_token"
  let expiresIn ← getIntField l "expires_in"
  let tokenType ← getStrField l "token_type"
  let scope ← getStrField l "scope"
  let expiresAt ← getIntField l "expires_at"
  pure { accessToken := accessToken, refreshToken := refreshToken,
         expiresIn := expiresIn, tokenType := tokenType, scope := scope,
         expiresAt := expiresAt }

/-- Contents of the token file: missing, rejected by json.Unmarshal, or a
stored JSON object. -/
inductive FileState where
  | absent
  | corrupt
  | stored (obj : List (String × JsonVal))
  deriving Repr, DecidableEq

/-- SetAccessToken (client.go lines 78-86): installs the token in memory,
marshals it and writes the token file.  The os.WriteFile error is ignored by
the source, so a failed write (writeOk = false) leaves the file as it was;
the method returns only the client, with no error channel. -/
def SetAccessToken (c : Client) (fs : FileState) (t : Token) (writeOk : Bool) :
    Client × FileState :=
  ({ c with token := some t }, if writeOk then .stored (encodeToken t) else fs)

/-- SetAccessTokenFromFile (client.go lines 88-102): a read error or an
unmarshal error returns the client unchanged; no error value is produced. -/
def SetAccessTokenFromFile (c : Client) (fs : FileState) : Client :=
  match fs with
  | .absent => c
  | .corrupt => c
  | .stored obj =>
      match decodeToken obj with
      | none => c
      | some t => { c with token := some t }

/-! ## Authenticated transport (client.go lines 149-225) -/

structure HttpRequest where
  method : String
  url : String
  headers : List (String × String)
  deriving Repr, DecidableEq

inductive MakeRequestResult where
  | refreshFailed
  | notAuthenticated
  | sent (req : HttpRequest)
  deriving Repr, DecidableEq

/-- refreshToken (client.go lines 149-191) as makeRequest observes it: it
fails when there is no token or the refresh token is empty; otherwise the
outcome of the POST to the token endpoint is the refreshResp argument
(none models transport failure, a non-200 status or a malformed body).  On
success the parsed token is stamped with expiry now + expires_in (line 187)
and replaces the stored one. -/
def refreshTokenStep (c : Client) (now : ℤ) (refreshResp : Option Token) :
    Option Client :=
  match c.token with
  | none => none
  | some t =>
      if t.refreshToken = "" then none
      else
        match refreshResp with
        | none => none
        | some nt =>
            some { c with token := some { nt with expiresAt := now + nt.expiresIn } }

/-- Guard at client.go line 201: a token is present and now plus five
minutes is strictly after its expiry (time.Time.After is strict). -/
def needsRefresh (c : Client) (now : ℤ) : Bool :=
  match c.token with
  | none => false
  | some t => decide (now + 5 * 60 > t.expiresAt)

/-- Lines 207-224 of client.go: the authentication check followed by header
attachment; the token is present whenever IsAuthenticated holds, so the
fallback branch is unreachable. -/
def sendStep (c : Client) (now : ℤ) (method path : String) : MakeRequestResult :=
  if IsAuthenticated c now then
    match c.token with
    | some t =>
        .sent { method := method, url := baseURL ++ path,
                headers := [("Authorization", "Bearer " ++ t.accessToken),
                            ("Content-Type", "application/json")] }
    | none => .notAuthenticated
  else .notAuthenticated

/-- makeRequest (client.go lines 199-225): conditional refresh, whose
failure is returned immediately; then the authentication check; then the
outbound request.  Only the `sent` result stands for a network call to the
business endpoint. -/
def makeRequest (c : Client) (now : ℤ) (refreshResp : Option Token)
    (method path : String) : MakeRequestResult :=
  if needsRefresh c now then
    match refreshTokenStep c now refreshResp with
    | none => .refreshFailed
    | some c2 => sendStep c2 now method path
  else sendStep c now method path

/-! ## GetAccounts (client.go lines 230-278) -/

structure CurrentBalances where
  cashBalance : ℚ
  buyingPower : ℚ
  marketValue : ℚ
  deriving Repr, DecidableEq

/-- Anonymous struct of client.go lines 246-257 (one element of the parsed
accounts array). -/
structure SecuritiesAccount where
  accountNumber : String
  type : String
  accountID : String
  currentBalances : CurrentBalances
  deriving Repr, DecidableEq

/-- Vendor wire record for one account.  Besides the fields the adapter
declares, the vendor may send an aggregated total; json.Unmarshal drops any
key the target struct does not declare, which `parseAccountWire` makes
explicit. -/
structure SchwabAccountWire where
  accountNumber : String
  type : String
  accountID : String
  cashBalance : ℚ
  buyingPower : ℚ
  longMarketValue : ℚ
  vendorTotalValue : ℚ
  deriving Repr, DecidableEq

def parseAccountWire (w : SchwabAccountWire) : SecuritiesAccount :=
  { accountNumber := w.accountNumber, type := w.type, accountID := w.accountID,
    currentBalances :=
      { cashBalance := w.cashBalance, buyingPower := w.buyingPower,
        marketValue := w.longMarketValue } }

/-- Loop body of client.go lines 264-274: the total is always recomputed as
cash balance plus market value. -/
def convertAccount (acc : SecuritiesAccount) : Account :=
  { accountID := acc.accountID,
    accountNumber := acc.accountNumber,
    type := acc.type,
    cashBalance := acc.currentBalances.cashBalance,
    buyingPower := acc.currentBalances.buyingPower,
    marketValue := acc.currentBalances.marketValue,
    totalValue := acc.currentBalances.cashBalance + acc.currentBalances.marketValue }

def GetAccountsFromParsed (l : List SecuritiesAccount) : List Account :=
  l.map convertAccount

def GetAccountsFromWire (l : List SchwabAccountWire) : List Account :=
  GetAccountsFromParsed (l.map parseAccountWire)

/-! ## GetPositions (client.go lines 283-345) -/

/-- Anonymous struct of client.go lines 302-311 (one parsed position). -/
structure SchwabPosition where
  shortQuantity : ℚ
  averagePrice : ℚ
  currentDayProfitLoss : ℚ
  longQuantity : ℚ
  marketValue : ℚ
  symbol : String
  deriving Repr, DecidableEq

/-- Loop body of client.go lines 320-341, with the two divisions taken in
the float abstraction: the price division is guarded by quantity being
nonzero, the percentage division only by averagePrice being nonzero even
though its denominator is averagePrice times quantity. -/
def convertPosition (p : SchwabPosition) : Position :=
  let quantity : ℚ := p.longQuantity - p.shortQuantity
  let currentPrice : FQ :=
    if quantity ≠ 0 then fdiv (some p.marketValue) (some quantity) else some 0
  let unrealizedPL : FQ :=
    fsub (some p.marketValue) (fmul (some p.averagePrice) (some quantity))
  let unrealizedPLPct : FQ :=
    if p.averagePrice ≠ 0 then
      fmul (fdiv unrealizedPL (fmul (some p.averagePrice) (some quantity))) (some 100)
    else some 0
  { symbol := p.symbol, quantity := some quantity,
    averagePrice := some p.averagePrice, currentPrice := currentPrice,
    marketValue := some p.marketValue, unrealizedPL := unrealizedPL,
    unrealizedPLPct := unrealizedPLPct }

def GetPositionsFromParsed (l : List SchwabPosition) : List Position :=
  l.map convertPosition

/-! ## PlaceOrder (client.go lines 350-415) and order status conversion -/

structure OrderLeg where
  instruction : String
  quantity : ℚ
  symbol : String
  assetType : String
  deriving Repr, DecidableEq

/-- Vendor order payload of client.go lines 352-372; the price component is
the optional key added at line 371 only when the order type is LIMIT and the
limit price is non-nil. -/
structure SchwabOrderPayload where
  orderType : String
  session : String
  duration : String
  orderStrategyType : String
  orderLegCollection : List OrderLeg
  price : Option ℚ
  deriving Repr, DecidableEq

def buildSchwabOrder (order : OrderRequest) : SchwabOrderPayload :=
  { orderType := order.type,
    session := "NORMAL",
    duration := "DAY",
    orderStrategyType := "SINGLE",
    orderLegCollection :=
      [{ instruction := order.action, quantity := order.quantity,
         symbol := order.symbol, assetType := "EQUITY" }],
    price := if order.type = OrderTypeLimit then order.limitPrice else none }

/-- strings.Split on the slash separator (client.go line 398); the result
always has at least one element. -/
def splitOnChar (sep : Char) : List Char → List (List Char)
  | [] => [[]]
  | c :: rest =>
      let r := splitOnChar sep rest
      if c = sep then [] :: r else (c :: r.headD []) :: r.tail

/-- Lines 396-402 of client.go: an empty location keeps the empty order id;
otherwise the id is the last element of the split. -/
def extractOrderID (location : String) : String :=
  if location = "" then ""
  else String.mk ((splitOnChar '/' location.data).getLastD [])

/-- Everything after the last slash, and the whole string when no slash
occurs: the specification-side reading of the trailing path segment. -/
def afterLastSlash : List Char → List Char
  | [] => []
  | c :: rest =>
      if '/' ∈ rest then afterLastSlash rest
      else if c = '/' then rest
      else c :: rest

/-- Response handling of client.go lines 391-414: a status other than 201 or
200 is an error carrying the body; otherwise the order is assembled with the
id extracted from the Location header, pending status, zero fill data and
the raw body retained. -/
def placeOrderFinish (order : OrderRequest) (status : ℕ) (location : String)
    (body : String) (now : ℤ) : Except String Order :=
  if status ≠ 201 ∧ status ≠ 200 then
    .error ("place order failed with status " ++ toString status ++ ": " ++ body)
  else
    .ok { id := extractOrderID location,
          symbol := order.symbol,
          action := order.action,
          type := order.type,
          quantity := order.quantity,
          limitPrice := order.limitPrice,
          status := OrderStatusPending,
          filledQty := 0, filledPrice := 0,
          submittedAt := now, filledAt := none,
          rawResponse := body }

/-- ASCII uppercasing of one character: the specification-side notion used
below to define what an ASCII casing of a status word is. -/
def asciiUpperChar (c : Char) : Char :=
  if 'a' ≤ c ∧ c ≤ 'z' then Char.ofNat (c.toNat - 32) else c

/-- Go strings.ToUpper on one character, i.e. the Unicode simple uppercase
mapping, modelled exactly on every character whose uppercase can be an
ASCII letter: the ASCII letters a-z, plus the only two non-ASCII
characters whose simple uppercase mapping lands in ASCII, U+0131 (dotless
i, to I) and U+017F (long s, to S).  Every other character is left
unchanged; Go may uppercase such a character to a different non-ASCII
character, but no comparison of the result against an ASCII-uppercase
literal, which is all convertOrderStatus does with it, can tell the
difference. -/
def goToUpperChar (c : Char) : Char :=
  if c = 'ı' then 'I'
  else if c = 'ſ' then 'S'
  else asciiUpperChar c

/-- Go strings.ToUpper: uppercase every character. -/
def goToUpper (s : String) : String :=
  String.mk (s.data.map goToUpperChar)

/-- Casings of an all-lowercase ASCII word: same length, each character
either the original letter or its ASCII uppercase. -/
def isAsciiCasingOf : List Char → List Char → Bool
  | [], [] => true
  | c :: s, d :: w => (c == d || c == asciiUpperChar d) && isAsciiCasingOf s w
  | _, _ => false

/-- convertOrderStatus (client.go lines 597-608): switch on the uppercased
input with a pending default. -/
def convertOrderStatus (status : String) : OrderStatus :=
  match goToUpper status with
  | "FILLED" => OrderStatusFilled
  | "CANCELED" => OrderStatusCancelled
  | "CANCELLED" => OrderStatusCancelled
  | "REJECTED" => OrderStatusRejected
  | _ => OrderStatusPending

/-! ## Concrete fixtures used by witnesses and counterexamples -/

def sampleConfig : Config :=
  { clientID := "id", clientSecret := "secret",
    redirectURI := "https://127.0.0.1/callback", tokenFile := "token.json" }

def clientNoToken : Client :=
  { config := sampleConfig, httpTimeoutSeconds := 30, token := none }

def tokenAt0 : Token :=
  { accessToken := "acc", refreshToken := "ref", expiresIn := 1800,
    tokenType := "Bearer", scope := "api", expiresAt := 1800 }

def clientWithToken : Client :=
  { config := sampleConfig, httpTimeoutSeconds := 30, token := some tokenAt0 }

/-- Parsed vendor position whose derived quantity is zero while averagePrice
and marketValue are not. -/
def bugPosition : SchwabPosition :=
  { shortQuantity := 1, averagePrice := 5, currentDayProfitLoss := 0,
    longQuantity := 1, marketValue := 100, symbol := "AAPL" }

def limitOrderNoPrice : OrderRequest :=
  { symbol := "ABC", action := OrderActionBuy, type := OrderTypeLimit,
    quantity := 10, limitPrice := none }

def marketOrderABC : OrderRequest :=
  { symbol := "ABC", action := OrderActionBuy, type := OrderTypeMarket,
    quantity := 10, limitPrice := none }

def limitOrderABC : OrderRequest :=
  { symbol := "ABC", action := OrderActionBuy, type := OrderTypeLimit,
    quantity := 10, limitPrice := some (601 / 4 : ℚ) }

def wireAccount0 : SchwabAccountWire :=
  { accountNumber := "123", type := "CASH", accountID := "abc",
    cashBalance := 100, buyingPower := 200, longMarketValue := 50,
    vendorTotalValue := 9999 }

def orderLocation : String :=
  "https://api.schwabapi.com/trader/v1/accounts/ABC123/orders/456789"

/-! ## Theorems -/

theorem decodeToken_encodeToken (t : Token) :
    decodeToken (encodeToken t) = some t := by
  simp [decodeToken, encodeToken, getStrField, getIntField, List.lookup]

theorem splitOnChar_ne_nil (sep : Char) (l : List Char) :
    splitOnChar sep l ≠ [] := by
  induction l with
  | nil => simp [splitOnChar]
  | cons c rest ih =>
      simp only [splitOnChar]
      split <;> simp

theorem splitOnChar_of_not_mem (sep : Char) (l : List Char) (h : sep ∉ l) :
    splitOnChar sep l = [l] := by
  induction l with
  | nil => rfl
  | cons c rest ih =>
      simp only [List.mem_cons, not_or] at h
      have hc : ¬ c = sep := fun hcc => h.1 hcc.symm
      simp only [splitOnChar, ih h.2, if_neg hc]
      rfl

theorem two_le_length_splitOnChar (sep : Char) (l : List Char) (h : sep ∈ l) :
    2 ≤ (splitOnChar sep l).length := by
  induction l with
  | nil => simp at h
  | cons c rest ih =>
      simp only [splitOnChar]
      by_cases hc : c = sep
      · have hpos : 0 < (splitOnChar sep rest).length :=
          List.length_pos.mpr (splitOnChar_ne_nil sep rest)
        simp only [if_pos hc, List.length_cons]
        omega
      · have hrest : sep ∈ rest := by
          rcases List.mem_cons.mp h with h1 | h1
          · exact absurd h1.symm hc
          · exact h1
        have h2 := ih hrest
        have htl : (splitOnChar sep rest).tail.length =
            (splitOnChar sep rest).length - 1 := List.length_tail _
        simp only [if_neg hc, List.length_cons]
        omega

theorem getLastD_of_ne_nil {α : Type} {l : List α} (h : l ≠ []) (d1 d2 : α) :
    l.getLastD d1 = l.getLastD d2 := by
  cases l with
  | nil => exact absurd rfl h
  | cons a t => rw [List.getLastD_cons, List.getLastD_cons]

theorem getLastD_splitOnChar (l : List Char) :
    (splitOnChar '/' l).getLastD [] = afterLastSlash l := by
  induction l with
  | nil => rfl
  | cons c rest ih =>
      by_cases hmem : '/' ∈ rest
      · simp only [splitOnChar, afterLastSlash, if_pos hmem]
        by_cases hc : c = '/'
        · simpa only [if_pos hc, List.getLastD_cons] using ih
        · have hlen := two_le_length_splitOnChar '/' rest hmem
          rw [if_neg hc]
          cases hr : splitOnChar '/' rest with
          | nil => exact absurd hr (splitOnChar_ne_nil '/' rest)
          | cons rh rt =>
              have hrt : rt ≠ [] := by
                intro hnil
                rw [hr, hnil] at hlen
                simp at hlen
              rw [hr] at ih
              simp only [List.getLastD_cons] at ih ⊢
              simp only [List.headD_cons, List.tail_cons]
              rw [getLastD_of_ne_nil hrt (c :: rh) rh]
              exact ih
      · simp only [splitOnChar, afterLastSlash, if_neg hmem,
          splitOnChar_of_not_mem '/' rest hmem]
        by_cases hc : c = '/'
        · simp [if_pos hc, List.getLastD_cons]
        · simp [if_neg hc, List.getLastD_cons]

theorem afterLastSlash_no_slash (l : List Char) : '/' ∉ afterLastSlash l := by
  induction l with
  | nil => simp [afterLastSlash]
  | cons c rest ih =>
      by_cases hmem : '/' ∈ rest
      · simp only [afterLastSlash, if_pos hmem]
        exact ih
      · by_cases hc : c = '/'
        · simp only [afterLastSlash, if_neg hmem, if_pos hc]
          exact hmem
        · simp only [afterLastSlash, if_neg hmem, if_neg hc]
          simp only [List.mem_cons, not_or]
          exact ⟨fun h1 => hc h1.symm, hmem⟩

theorem afterLastSlash_append (l : List Char) (h : '/' ∈ l) :
    ∃ pre, l = pre ++ '/' :: afterLastSlash l := by
  induction l with
  | nil => simp at h
  | cons c rest ih =>
      by_cases hmem : '/' ∈ rest
      · obtain ⟨pre, hpre⟩ := ih hmem
        refine ⟨c :: pre, ?_⟩
        simp only [afterLastSlash, if_pos hmem, List.cons_append]
        exact congrArg (c :: ·) hpre
      · have hc : c = '/' := by
          rcases List.mem_cons.mp h with h1 | h1
          · exact h1.symm
          · exact absurd h1 hmem
        refine ⟨[], ?_⟩
        simp [afterLastSlash, hmem, hc]

/-- C10: NewClient ignores the timeoutInSeconds argument; the HTTP timeout
of the constructed client is always 30 seconds and the result does not
depend on the argument at all. -/
theorem c10_timeout_fixed (config : Config) (timeoutInSeconds t2 : ℤ) :
    (NewClient config timeoutInSeconds).httpTimeoutSeconds = 30 ∧
    NewClient config timeoutInSeconds = NewClient config t2 :=
  ⟨rfl, rfl⟩

/-- C2: IsAuthenticated is true exactly when a token is present whose expiry
is strictly after now, and is false whenever no token is present. -/
theorem c2_isAuthenticated_iff (c : Client) (now : ℤ) :
    (IsAuthenticated c now = true ↔ ∃ t, c.token = some t ∧ now < t.expiresAt) ∧
    (c.token = none → IsAuthenticated c now = false) := by
  constructor
  · constructor
    · intro h
      cases htok : c.token with
      | none => simp [IsAuthenticated, htok] at h
      | some t =>
          refine ⟨t, rfl, ?_⟩
          simpa [IsAuthenticated, htok] using h
    · rintro ⟨t, ht, hlt⟩
      simp [IsAuthenticated, ht, hlt]
  · intro h
    simp [IsAuthenticated, h]

/-- C2 witness: a client with no token is not authenticated at time 0. -/
theorem c2_isAuthenticated_iff_witness :
    IsAuthenticated clientNoToken 0 = false :=
  (c2_isAuthenticated_iff clientNoToken 0).2 rfl

/-- C1: at a parsed position with longQuantity = shortQuantity = 1 (derived
quantity 0), averagePrice = 5 and marketValue = 100, the two stated guards
do hold (the zero quantity gives CurrentPrice 0 and the averagePrice guard
is not triggered), yet UnrealizedPLPct divides by averagePrice times
quantity, which is 0, and the non-finite result (IEEE +Inf here) escapes
into the returned Position, contradicting the no-NaN/Inf invariant. -/
theorem c1_unrealizedPLPct_nonfinite_escape :
    (GetPositionsFromParsed [bugPosition]).map Position.unrealizedPLPct = [none] ∧
    (GetPositionsFromParsed [bugPosition]).map Position.quantity = [some 0] ∧
    (GetPositionsFromParsed [bugPosition]).map Position.currentPrice = [some 0] := by
  refine ⟨?_, ?_, ?_⟩ <;>
    simp [GetPositionsFromParsed, convertPosition, bugPosition, fdiv, fmul, fsub]

theorem goToUpper_data_of_casing (s w : List Char)
    (hw : ∀ d ∈ w, goToUpperChar d = asciiUpperChar d ∧
        goToUpperChar (asciiUpperChar d) = asciiUpperChar d)
    (h : isAsciiCasingOf s w = true) :
    s.map goToUpperChar = w.map asciiUpperChar := by
  induction w generalizing s with
  | nil =>
      cases s with
      | nil => rfl
      | cons c s => simp [isAsciiCasingOf] at h
  | cons d w ih =>
      cases s with
      | nil => simp [isAsciiCasingOf] at h
      | cons c s =>
          simp only [isAsciiCasingOf, Bool.and_eq_true, Bool.or_eq_true,
            beq_iff_eq] at h
          obtain ⟨hc, hrest⟩ := h
          have hd := hw d (List.mem_cons_self d w)
          have hhead : goToUpperChar c = asciiUpperChar d := by
            rcases hc with rfl | rfl
            · exact hd.1
            · exact hd.2
          simp only [List.map_cons, hhead,
            ih s (fun e he => hw e (List.mem_cons_of_mem d he)) hrest]

theorem goToUpper_eq_of_casing (s : String) (w : List Char) (target : String)
    (hw : ∀ d ∈ w, goToUpperChar d = asciiUpperChar d ∧
        goToUpperChar (asciiUpperChar d) = asciiUpperChar d)
    (ht : String.mk (w.map asciiUpperChar) = target)
    (h : isAsciiCasingOf s.data w = true) : goToUpper s = target := by
  rw [goToUpper, goToUpper_data_of_casing s.data w hw h, ht]

/-- C4 counterexample: the string fılled, whose second character is U+0131
dotless i, is an ASCII casing of none of the four status words, so the
claim sends it to pending; yet the conversion maps it to the filled
status, because Go strings.ToUpper applies the Unicode simple case mapping
of dotless i to I. -/
theorem c4_unicode_casing_counterexample :
    convertOrderStatus "fılled" = OrderStatusFilled ∧
    isAsciiCasingOf "fılled".data "filled".data = false ∧
    isAsciiCasingOf "fılled".data "canceled".data = false ∧
    isAsciiCasingOf "fılled".data "cancelled".data = false ∧
    isAsciiCasingOf "fılled".data "rejected".data = false := by
  decide

/-- C4 amended: convertOrderStatus is total and depends only on the
uppercased input; every ASCII casing of filled, of canceled or cancelled,
and of rejected maps to the corresponding status; more generally every
string whose Go uppercasing equals the respective uppercase word maps that
way, which also admits a few non-casings such as fılled via the Unicode
simple case mappings; and every string whose uppercasing is none of the
four words, the empty string included, maps to pending. -/
theorem c4_convertOrderStatus_total (s : String) :
    (∀ s2, goToUpper s = goToUpper s2 → convertOrderStatus s = convertOrderStatus s2) ∧
    (isAsciiCasingOf s.data "filled".data = true →
        convertOrderStatus s = OrderStatusFilled) ∧
    (isAsciiCasingOf s.data "canceled".data = true ∨
        isAsciiCasingOf s.data "cancelled".data = true →
        convertOrderStatus s = OrderStatusCancelled) ∧
    (isAsciiCasingOf s.data "rejected".data = true →
        convertOrderStatus s = OrderStatusRejected) ∧
    (goToUpper s = "FILLED" → convertOrderStatus s = OrderStatusFilled) ∧
    (goToUpper s = "CANCELED" ∨ goToUpper s = "CANCELLED" →
        convertOrderStatus s = OrderStatusCancelled) ∧
    (goToUpper s = "REJECTED" → convertOrderStatus s = OrderStatusRejected) ∧
    (goToUpper s ≠ "FILLED" → goToUpper s ≠ "CANCELED" → goToUpper s ≠ "CANCELLED" →
        goToUpper s ≠ "REJECTED" → convertOrderStatus s = OrderStatusPending) := by
  have upFilled : goToUpper s = "FILLED" → convertOrderStatus s = OrderStatusFilled := by
    intro h
    unfold convertOrderStatus
    rw [h]
    decide
  have upCanceled : goToUpper s = "CANCELED" →
      convertOrderStatus s = OrderStatusCancelled := by
    intro h
    unfold convertOrderStatus
    rw [h]
    decide
  have upCancelled : goToUpper s = "CANCELLED" →
      convertOrderStatus s = OrderStatusCancelled := by
    intro h
    unfold convertOrderStatus
    rw [h]
    decide
  have upRejected : goToUpper s = "REJECTED" →
      convertOrderStatus s = OrderStatusRejected := by
    intro h
    unfold convertOrderStatus
    rw [h]
    decide
  refine ⟨?_, ?_, ?_, ?_, upFilled, ?_, upRejected, ?_⟩
  · intro s2 h
    unfold convertOrderStatus
    rw [h]
  · intro h
    exact upFilled
      (goToUpper_eq_of_casing s "filled".data "FILLED" (by decide) (by decide) h)
  · rintro (h | h)
    · exact upCanceled
        (goToUpper_eq_of_casing s "canceled".data "CANCELED" (by decide) (by decide) h)
    · exact upCancelled
        (goToUpper_eq_of_casing s "cancelled".data "CANCELLED" (by decide) (by decide) h)
  · intro h
    exact upRejected
      (goToUpper_eq_of_casing s "rejected".data "REJECTED" (by decide) (by decide) h)
  · rintro (h | h)
    · exact upCanceled h
    · exact upCancelled h
  · intro h1 h2 h3 h4
    unfold convertOrderStatus
    split
    · exact absurd (by assumption) h1
    · exact absurd (by assumption) h2
    · exact absurd (by assumption) h3
    · exact absurd (by assumption) h4
    · rfl

/-- C4 witness: concrete casings of the four words and the empty string map
as the amended claim states. -/
theorem c4_convertOrderStatus_total_witness :
    convertOrderStatus "FiLLeD" = OrderStatusFilled ∧
    convertOrderStatus "cancelled" = OrderStatusCancelled ∧
    convertOrderStatus "Rejected" = OrderStatusRejected ∧
    convertOrderStatus "" = OrderStatusPending :=
  ⟨(c4_convertOrderStatus_total "FiLLeD").2.1 (by decide),
   (c4_convertOrderStatus_total "cancelled").2.2.1 (Or.inr (by decide)),
   (c4_convertOrderStatus_total "Rejected").2.2.2.1 (by decide),
   (c4_convertOrderStatus_total "").2.2.2.2.2.2.2 (by decide) (by decide)
     (by decide) (by decide)⟩

/-- C5: every account the adapter produces carries a total equal to cash
balance plus market value; the total is recomputed from the wire
cashBalance and longMarketValue and is independent of any vendor-supplied
total field, which the parse step drops. -/
theorem c5_totalValue_recomputed :
    (∀ ws : List SchwabAccountWire, ∀ a ∈ GetAccountsFromWire ws,
        a.totalValue = a.cashBalance + a.marketValue) ∧
    (∀ w : SchwabAccountWire,
        (convertAccount (parseAccountWire w)).totalValue =
          w.cashBalance + w.longMarketValue) ∧
    (∀ w : SchwabAccountWire, ∀ v : ℚ,
        GetAccountsFromWire [{ w with vendorTotalValue := v }] =
          GetAccountsFromWire [w]) := by
  refine ⟨?_, fun w => rfl, fun w v => rfl⟩
  intro ws a ha
  simp only [GetAccountsFromWire, GetAccountsFromParsed, List.map_map,
    List.mem_map] at ha
  obtain ⟨w, hw, rfl⟩ := ha
  rfl

/-- C5 witness: the concrete wire account with cash 100, long market value
50 and a vendor total of 9999 produces total 150 = 100 + 50. -/
theorem c5_totalValue_recomputed_witness :
    (convertAccount (parseAccountWire wireAccount0)).totalValue =
      (convertAccount (parseAccountWire wireAccount0)).cashBalance +
        (convertAccount (parseAccountWire wireAccount0)).marketValue :=
  c5_totalValue_recomputed.1 [wireAccount0]
    (convertAccount (parseAccountWire wireAccount0))
    (by simp [GetAccountsFromWire, GetAccountsFromParsed])

/-- C6 counterexample: a limit order whose optional limit price is nil
produces a vendor payload without a price field, so the claim that every
limit order payload carries a price fails at this input. -/
theorem c6_limit_order_without_price :
    limitOrderNoPrice.type = OrderTypeLimit ∧
    (buildSchwabOrder limitOrderNoPrice).price = none := by
  refine ⟨rfl, ?_⟩
  simp [buildSchwabOrder, limitOrderNoPrice]

/-- C6 amended: a limit order carrying a non-nil limit price yields a
payload whose price field is that price; a market order payload never
carries a price; and the 150.25 scenario behaves as stated. -/
theorem c6_payload_price_rule (order : OrderRequest) :
    (order.type = OrderTypeLimit → ∀ p, order.limitPrice = some p →
        (buildSchwabOrder order).price = some p) ∧
    (order.type = OrderTypeMarket → (buildSchwabOrder order).price = none) ∧
    (buildSchwabOrder limitOrderABC).price = some (601 / 4 : ℚ) ∧
    (buildSchwabOrder marketOrderABC).price = none := by
  refine ⟨?_, ?_, ?_, ?_⟩
  · intro htype p hp
    simp [buildSchwabOrder, htype, hp]
  · intro htype
    simp [buildSchwabOrder, htype, OrderTypeMarket, OrderTypeLimit]
  · simp [buildSchwabOrder, limitOrderABC]
  · simp [buildSchwabOrder, marketOrderABC, OrderTypeMarket, OrderTypeLimit]

/-- C6 witness: the concrete ABC limit order with price 150.25 carries that
price in its payload. -/
theorem c6_payload_price_rule_witness :
    (buildSchwabOrder limitOrderABC).price = some (601 / 4 : ℚ) :=
  (c6_payload_price_rule limitOrderABC).1 rfl (601 / 4 : ℚ) rfl

/-- C8 counterexample: loading from a corrupt token file returns the client
unchanged and produces no error value (the Go signature returns only the
client), and a save whose file write fails still returns the client with
the token installed, the write error discarded. -/
theorem c8_errors_discarded :
    SetAccessTokenFromFile clientNoToken .corrupt = clientNoToken ∧
    SetAccessToken clientNoToken .absent tokenAt0 false =
      ({ clientNoToken with token := some tokenAt0 }, .absent) :=
  ⟨rfl, rfl⟩

/-- C8 amended: the credential store surfaces no errors at all: saving
returns the client with the token installed whether or not the write
succeeds, and loading returns the client unchanged on a missing or
unparseable file instead of reporting NotFound or a parse failure. -/
theorem c8_store_never_reports_errors (c : Client) (fs : FileState) (t : Token)
    (writeOk : Bool) :
    (SetAccessToken c fs t writeOk).1 = { c with token := some t } ∧
    SetAccessTokenFromFile c .absent = c ∧
    SetAccessTokenFromFile c .corrupt = c :=
  ⟨rfl, rfl, rfl⟩

/-- C7: saving a token with SetAccessToken under a successful file write
and loading it back with SetAccessTokenFromFile restores exactly the saved
token: the stored access token, refresh token, token type, scope,
expires_in and expiry are those of t, whatever client performs the load. -/
theorem c7_token_roundtrip (c c2 : Client) (fs : FileState) (t : Token) :
    (SetAccessTokenFromFile c2 (SetAccessToken c fs t true).2).token = some t := by
  simp [SetAccessToken, SetAccessTokenFromFile, decodeToken_encodeToken]

/-- C3: makeRequest refreshes first when a token exists and now plus the
5-minute window is strictly past its expiry, and a refresh failure is
returned immediately with no business request; after the refresh phase a
client that is still not authenticated yields notAuthenticated with no
network call; otherwise the request goes out with the bearer and
content-type headers.  With expiry T + 1800 a call at T + 1796 attempts the
refresh while a call at T + 1000 does not: its result ignores the refresh
oracle and uses the original token. -/
theorem c3_makeRequest_refresh_policy (c : Client) (now : ℤ)
    (refreshResp : Option Token) (method path : String) :
    (∀ t, c.token = some t → now + 5 * 60 > t.expiresAt →
        refreshTokenStep c now refreshResp = none →
        makeRequest c now refreshResp method path = .refreshFailed) ∧
    (∀ c2, (if needsRefresh c now then refreshTokenStep c now refreshResp
            else some c) = some c2 →
        IsAuthenticated c2 now = false →
        makeRequest c now refreshResp method path = .notAuthenticated) ∧
    (∀ c2 t, (if needsRefresh c now then refreshTokenStep c now refreshResp
              else some c) = some c2 →
        c2.token = some t → now < t.expiresAt →
        makeRequest c now refreshResp method path =
          .sent { method := method, url := baseURL ++ path,
                  headers := [("Authorization", "Bearer " ++ t.accessToken),
                              ("Content-Type", "application/json")] }) ∧
    (∀ T t, c.token = some t → t.expiresAt = T + 1800 → t.refreshToken ≠ "" →
        makeRequest c (T + 1796) none method path = .refreshFailed ∧
        makeRequest c (T + 1000) refreshResp method path =
          .sent { method := method, url := baseURL ++ path,
                  headers := [("Authorization", "Bearer " ++ t.accessToken),
                              ("Content-Type", "application/json")] }) := by
  refine ⟨?_, ?_, ?_, ?_⟩
  · intro t ht hgt hfail
    have hneed : needsRefresh c now = true := by
      simp only [needsRefresh, ht, decide_eq_true_eq]
      exact hgt
    simp [makeRequest, hneed, hfail]
  · intro c2 hc2 hnot
    cases hneed : needsRefresh c now with
    | true =>
        rw [if_pos (by rw [hneed])] at hc2
        simp [makeRequest, hneed, hc2, sendStep, hnot]
    | false =>
        rw [if_neg (by rw [hneed]; exact Bool.false_ne_true)] at hc2
        injection hc2 with hc2
        subst hc2
        simp [makeRequest, hneed, sendStep, hnot]
  · intro c2 t hc2 ht hlt
    have hauth : IsAuthenticated c2 now = true := by
      simp only [IsAuthenticated, ht, decide_eq_true_eq]
      exact hlt
    have hsend : sendStep c2 now method path =
        .sent { method := method, url := baseURL ++ path,
                headers := [("Authorization", "Bearer " ++ t.accessToken),
                            ("Content-Type", "application/json")] } := by
      simp [sendStep, hauth, ht]
    cases hneed : needsRefresh c now with
    | true =>
        rw [if_pos (by rw [hneed])] at hc2
        simp [makeRequest, hneed, hc2, hsend]
    | false =>
        rw [if_neg (by rw [hneed]; exact Bool.false_ne_true)] at hc2
        injection hc2 with hc2
        subst hc2
        simp [makeRequest, hneed, hsend]
  · intro T t ht hexp hrt
    constructor
    · have hneed : needsRefresh c (T + 1796) = true := by
        simp only [needsRefresh, ht, hexp, decide_eq_true_eq]
        omega
      have hfail : refreshTokenStep c (T + 1796) none = none := by
        simp [refreshTokenStep, ht, hrt]
      simp [makeRequest, hneed, hfail]
    · have hneed : needsRefresh c (T + 1000) = false := by
        simp only [needsRefresh, ht, hexp, decide_eq_false_iff_not]
        omega
      have hauth : IsAuthenticated c (T + 1000) = true := by
        simp only [IsAuthenticated, ht, hexp, decide_eq_true_eq]
        omega
      simp [makeRequest, hneed, sendStep, hauth, ht]

/-- C3 witness: the concrete client whose token expires at 1800 attempts a
refresh at 1796 (which surfaces the refresh failure with no request) and
sends the request directly at 1000 with the bearer header. -/
theorem c3_makeRequest_refresh_policy_witness :
    makeRequest clientWithToken (0 + 1796) none "GET" "/trader/v1/accounts" =
      .refreshFailed ∧
    makeRequest clientWithToken (0 + 1000) none "GET" "/trader/v1/accounts" =
      .sent { method := "GET", url := baseURL ++ "/trader/v1/accounts",
              headers := [("Authorization", "Bearer " ++ tokenAt0.accessToken),
                          ("Content-Type", "application/json")] } :=
  (c3_makeRequest_refresh_policy clientWithToken 0 none "GET"
      "/trader/v1/accounts").2.2.2 0 tokenAt0 rfl (by decide) (by decide)

/-- C9: on a successful placement the order id is the trailing path segment
of the location reference: the part after its last slash, slash-free, with
the whole reference when it contains no slash; an empty reference yields
the empty id while the call still succeeds with an ok order. -/
theorem c9_order_id_extraction (order : OrderRequest) (status : ℕ)
    (location body : String) (now : ℤ) :
    ((status = 200 ∨ status = 201) → ∃ o : Order,
        placeOrderFinish order status location body now = .ok o ∧
        o.id = extractOrderID location) ∧
    ('/' ∈ location.data →
        ∃ pre, location.data = pre ++ '/' :: (extractOrderID location).data ∧
          '/' ∉ (extractOrderID location).data) ∧
    ('/' ∉ location.data → location ≠ "" → extractOrderID location = location) ∧
    (location = "" → ∃ o : Order,
        placeOrderFinish order 201 location body now = .ok o ∧ o.id = "") := by
  refine ⟨?_, ?_, ?_, ?_⟩
  · intro h
    have hcond : ¬ (status ≠ 201 ∧ status ≠ 200) := by
      rcases h with rfl | rfl
      · exact fun hx => hx.2 rfl
      · exact fun hx => hx.1 rfl
    rw [placeOrderFinish, if_neg hcond]
    exact ⟨_, rfl, rfl⟩
  · intro hmem
    have hne : location ≠ "" := by
      intro hnil
      rw [hnil] at hmem
      simp at hmem
    have hid : extractOrderID location = String.mk (afterLastSlash location.data) := by
      rw [extractOrderID, if_neg hne, getLastD_splitOnChar]
    rw [hid]
    obtain ⟨pre, hpre⟩ := afterLastSlash_append location.data hmem
    exact ⟨pre, hpre, afterLastSlash_no_slash location.data⟩
  · intro hnmem hne
    rw [extractOrderID, if_neg hne, splitOnChar_of_not_mem '/' location.data hnmem]
    simp only [List.getLastD_cons]
    rfl
  · intro hnil
    subst hnil
    rw [placeOrderFinish, if_neg (fun hx => hx.1 rfl)]
    exact ⟨_, rfl, rfl⟩

/-- C9 witness: an accepted placement with no location reference succeeds
with the empty order id, and the concrete orders URL splits into a prefix,
a slash and the slash-free id 456789. -/
theorem c9_order_id_extraction_witness :
    (∃ o : Order,
        placeOrderFinish marketOrderABC 201 "" "raw" 0 = .ok o ∧ o.id = "") ∧
    (∃ pre, orderLocation.data =
        pre ++ '/' :: (extractOrderID orderLocation).data ∧
        '/' ∉ (extractOrderID orderLocation).data) :=
  ⟨(c9_order_id_extraction marketOrderABC 201 "" "raw" 0).2.2.2 rfl,
   (c9_order_id_extraction marketOrderABC 201 orderLocation "raw" 0).2.1
     (by decide)⟩

end MoneyPies
